import Mathlib

/-!
Shallow embedding of the core of the gitlab-tokens-exporter repository
(src/state_actor.rs, src/prometheus_metrics.rs, src/gitlab/pagination.rs,
src/gitlab/group.rs, src/gitlab/user.rs, src/gitlab/token.rs,
src/gitlab/project.rs), together with proofs of the specification claims.

Network interactions are modelled by explicit oracle functions
(a server answering URL requests, a fetch-by-id function, a users API record);
the asynchronous task machinery is modelled by lists of task results in
completion order; the tokio mpsc actor loop is modelled by a step function
over the received message list.  Machine integers (usize, u16) are modelled
by Nat; chrono NaiveDate is modelled by its day number (Int).
-/

namespace GitlabTokensExporter

/-- chrono NaiveDate, modelled as the signed number of days since 1970-01-01.
Subtraction of two NaiveDate values in the source yields a TimeDelta whose
num_days is exactly the difference of the day numbers. -/
abbrev Date := Int

/-- Civil-calendar (year, month, day) of a day number (days since 1970-01-01),
used to render a date the way chrono NaiveDate Display does. -/
def civilFromDays (days : Date) : Int × Nat × Nat :=
  let z : Int := days + 719468
  let era : Int := Int.fdiv z 146097
  let doe : Nat := (z - era * 146097).toNat
  let yoe : Nat := (doe - doe / 1460 + doe / 36524 - doe / 146096) / 365
  let y : Int := (yoe : Int) + era * 400
  let doy : Nat := doe - (365 * yoe + yoe / 4 - yoe / 100)
  let mp : Nat := (5 * doy + 2) / 153
  let d : Nat := doy - (153 * mp + 2) / 5 + 1
  let m : Nat := if mp < 10 then mp + 3 else mp - 9
  (if m ≤ 2 then y + 1 else y, m, d)

/-- Left-pads the decimal digits of a number with zeros up to the given width. -/
def natPad (width n : Nat) : String :=
  let s := toString n
  String.mk (List.replicate (width - s.length) '0') ++ s

/-- Renders a year the way chrono NaiveDate Display does: four zero-padded
digits for years 0..=9999, otherwise an explicit sign and at least five digits. -/
def yearStr (y : Int) : String :=
  if y < 0 then "-" ++ natPad 4 (-y).toNat
  else if y ≤ 9999 then natPad 4 y.toNat
  else "+" ++ natPad 5 y.toNat

/-- chrono NaiveDate Display (the `\x7bexpiration_date\x7d` interpolation in
prometheus_metrics::build): year-month-day with zero padding. -/
def dateStr (date : Date) : String :=
  match civilFromDays date with
  | (y, m, d) => yearStr y ++ "-" ++ natPad 2 m ++ "-" ++ natPad 2 d

/-- Rust bool Display. -/
def boolStr (b : Bool) : String := if b then "true" else "false"

/-- gitlab/token.rs AccessLevel. -/
inductive AccessLevel
  | Developer
  | Guest
  | Maintainer
  | Owner
  | Reporter
deriving DecidableEq

/-- Display for AccessLevel (gitlab/token.rs lines 21-36). -/
def AccessLevel.display : AccessLevel → String
  | .Guest => "guest"
  | .Reporter => "reporter"
  | .Developer => "developer"
  | .Maintainer => "maintainer"
  | .Owner => "owner"

/-- gitlab/token.rs AccessTokenScope. -/
inductive AccessTokenScope
  | AiFeatures
  | Api
  | CreateRunner
  | Granular
  | K8sProxy
  | ManageRunner
  | Mcp
  | ReadApi
  | ReadObservability
  | ReadRegistry
  | ReadRepository
  | ReadVirtualRegistry
  | SelfRotate
  | WriteObservability
  | WriteRegistry
  | WriteRepository
  | WriteVirtualRegistry
deriving DecidableEq

/-- Display for AccessTokenScope (gitlab/token.rs lines 114-136; note the
source really renders ReadVirtualRegistry as "read_virtual_repository"). -/
def AccessTokenScope.display : AccessTokenScope → String
  | .AiFeatures => "ai_features"
  | .Api => "api"
  | .CreateRunner => "create_runner"
  | .Granular => "granular"
  | .K8sProxy => "k8s_proxy"
  | .ManageRunner => "manage_runner"
  | .Mcp => "mcp"
  | .ReadApi => "read_api"
  | .ReadObservability => "read_observability"
  | .ReadRegistry => "read_registry"
  | .ReadRepository => "read_repository"
  | .ReadVirtualRegistry => "read_virtual_repository"
  | .SelfRotate => "self_rotate"
  | .WriteObservability => "write_observability"
  | .WriteRegistry => "write_registry"
  | .WriteRepository => "write_repository"
  | .WriteVirtualRegistry => "write_virtual_registry"

/-- gitlab/token.rs PersonalAccessTokenScope. -/
inductive PersonalAccessTokenScope
  | AdminMode
  | AiFeatures
  | Api
  | CreateRunner
  | Granular
  | K8sProxy
  | ManageRunner
  | Mcp
  | ReadApi
  | ReadObservability
  | ReadRegistry
  | ReadRepository
  | ReadServicePing
  | ReadUser
  | ReadVirtualRegistry
  | SelfRotate
  | Sudo
  | WriteObservability
  | WriteRegistry
  | WriteRepository
  | WriteVirtualRegistry
deriving DecidableEq

/-- Display for PersonalAccessTokenScope (gitlab/token.rs lines 222-248). -/
def PersonalAccessTokenScope.display : PersonalAccessTokenScope → String
  | .AdminMode => "admin_mode"
  | .AiFeatures => "ai_features"
  | .Api => "api"
  | .CreateRunner => "create_runner"
  | .Granular => "granular"
  | .K8sProxy => "k8s_proxy"
  | .ManageRunner => "manage_runner"
  | .Mcp => "mcp"
  | .ReadApi => "read_api"
  | .ReadObservability => "read_observability"
  | .ReadRegistry => "read_registry"
  | .ReadRepository => "read_repository"
  | .ReadServicePing => "read_service_ping"
  | .ReadUser => "read_user"
  | .ReadVirtualRegistry => "read_virtual_registry"
  | .SelfRotate => "self_rotate"
  | .Sudo => "sudo"
  | .WriteObservability => "write_observability"
  | .WriteRegistry => "write_registry"
  | .WriteRepository => "write_repository"
  | .WriteVirtualRegistry => "write_virtual_registry"

/-- gitlab/token.rs AccessToken. -/
structure AccessToken where
  access_level : AccessLevel
  active : Bool
  expires_at : Option Date
  id : Nat
  name : String
  revoked : Bool
  scopes : List AccessTokenScope
deriving DecidableEq

/-- gitlab/token.rs PersonalAccessToken. -/
structure PersonalAccessToken where
  active : Bool
  expires_at : Option Date
  id : Nat
  name : String
  revoked : Bool
  scopes : List PersonalAccessTokenScope
  user_id : Nat
deriving DecidableEq

/-- gitlab/token.rs Token. -/
inductive Token
  | Group (token : AccessToken) (full_path : String) (web_url : String)
  | Project (token : AccessToken) (full_path : String) (web_url : String)
  | User (token : PersonalAccessToken) (full_path : String)
deriving DecidableEq

/-- Token::scopes (gitlab/token.rs lines 276-298): bracketed comma-joined
scope list; the trailing comma is popped before the closing bracket. -/
def Token.scopes (t : Token) : String :=
  let res := "["
  let res := match t with
    | .Group token _ _ | .Project token _ _ =>
      token.scopes.foldl (fun acc (scope : AccessTokenScope) =>
        acc ++ scope.display ++ ",") res
    | .User token _ =>
      token.scopes.foldl (fun acc (scope : PersonalAccessTokenScope) =>
        acc ++ scope.display ++ ",") res
  let res := if res.data.getLast? = some ',' then String.mk res.data.dropLast else res
  res ++ "]"

/-- The expiry date carried by a Token's underlying record. -/
def Token.expiryDate : Token → Option Date
  | .Group token _ _ | .Project token _ _ => token.expires_at
  | .User token _ => token.expires_at

/-- prometheus_metrics.rs DEFAULT_TOKEN_VALIDITY_DAYS (line 10). -/
def DEFAULT_TOKEN_VALIDITY_DAYS : Nat := 9999

/-- The character filter of prometheus_metrics::build (lines 63-70):
characters outside [A-Za-z0-9_:] are replaced by an underscore. -/
def sanitizeChar (c : Char) : Char :=
  if ('a' ≤ c ∧ c ≤ 'z') ∨ ('A' ≤ c ∧ c ≤ 'Z') ∨ ('0' ≤ c ∧ c ≤ '9')
      ∨ c = '_' ∨ c = ':' then c else '_'

/-- The authorized-characters metric name of prometheus_metrics::build
(lines 63-70): "gitlab_token_" ++ full_path ++ "_" ++ name with every
character filtered through sanitizeChar. -/
def metricName (full_path name : String) : String :=
  String.mk (("gitlab_token_" ++ full_path ++ "_" ++ name).data.map sanitizeChar)

/-- prometheus_metrics::build (prometheus_metrics.rs lines 16-108).
date_now stands for chrono Utc::now().date_naive(); the rest is the exact
sequence of writes the source performs. -/
def build (gitlab_token : Token) (date_now : Date) : String :=
  let token_type := match gitlab_token with
    | .Group _ _ _ => "group"
    | .Project _ _ _ => "project"
    | .User _ _ => "user"
  let token_scopes := gitlab_token.scopes
  let fields := match gitlab_token with
    | .Group token full_path web_url | .Project token full_path web_url =>
      (token.name, token.active, token.revoked, token.expires_at,
        some token.access_level, full_path, some web_url)
    | .User token full_path =>
      (token.name, token.active, token.revoked, token.expires_at,
        none, full_path, none)
  match fields with
  | (name, active, revoked, expires_at, access_level, full_path, web_url) =>
    let metric_name := metricName full_path name
    let res := "# HELP " ++ metric_name ++ " Days before Gitlab token expires\n"
      ++ ("# TYPE " ++ metric_name ++ " gauge\n")
    let metric_str := metric_name ++ "\x7b" ++ token_type ++ "=\"" ++ full_path
      ++ "\",token_name=\"" ++ name ++ "\",active=\"" ++ boolStr active
      ++ "\",revoked=\"" ++ boolStr revoked ++ "\","
    let metric_str := metric_str ++ match access_level with
      | some level => "access_level=\"" ++ level.display ++ "\","
      | none => ""
    let metric_str := metric_str ++ match web_url with
      | some url => "web_url=\"" ++ url ++ "\","
      | none => ""
    let metric_str := metric_str ++ "scopes=\"" ++ token_scopes ++ "\""
    let metric_str := match expires_at with
      | some expiration_date =>
        metric_str ++ ",expires_at=\"" ++ dateStr expiration_date ++ "\"\x7d "
          ++ toString (expiration_date - date_now)
      | none => metric_str ++ "\x7d " ++ toString DEFAULT_TOKEN_VALIDITY_DAYS
    res ++ metric_str

/-- The part of the rendered metric block that precedes the expiry suffix:
the two comment lines and the label set up to and including the scopes label.
Spelled out independently from build so that equalities against it say where
the sample value and the expires_at label sit in build's output. -/
def buildLabelsPart (gitlab_token : Token) : String :=
  let token_type := match gitlab_token with
    | .Group _ _ _ => "group"
    | .Project _ _ _ => "project"
    | .User _ _ => "user"
  let fields := match gitlab_token with
    | .Group token full_path web_url | .Project token full_path web_url =>
      (token.name, token.active, token.revoked, some token.access_level,
        full_path, some web_url)
    | .User token full_path =>
      (token.name, token.active, token.revoked, none, full_path, none)
  match fields with
  | (name, active, revoked, access_level, full_path, web_url) =>
    let metric_name := metricName full_path name
    "# HELP " ++ metric_name ++ " Days before Gitlab token expires\n"
      ++ ("# TYPE " ++ metric_name ++ " gauge\n")
      ++ (metric_name ++ "\x7b" ++ token_type ++ "=\"" ++ full_path
        ++ "\",token_name=\"" ++ name ++ "\",active=\"" ++ boolStr active
        ++ "\",revoked=\"" ++ boolStr revoked ++ "\","
        ++ (match access_level with
            | some level => "access_level=\"" ++ level.display ++ "\","
            | none => "")
        ++ (match web_url with
            | some url => "web_url=\"" ++ url ++ "\","
            | none => "")
        ++ ("scopes=\"" ++ gitlab_token.scopes ++ "\""))

/-- state_actor.rs ActorState (lines 26-36). -/
inductive ActorState
  | Error (msg : String)
  | Loaded (s : String)
  | Loading
  | NoToken
deriving DecidableEq

/-- state_actor.rs Message (lines 39-50).  The oneshot reply channel of Get
is modelled by the reply field of StepResult below. -/
inductive Message
  | Get
  | Set (gitlab_data : Except String String)
  | Update

/-- Observable effect of handling one message in gitlab_tokens_actor's loop:
the state afterwards, the state copy sent on the Get reply channel (if any),
and whether a detached get_gitlab_data refresh task was spawned. -/
structure StepResult where
  state : ActorState
  reply : Option ActorState
  spawned_refresh : Bool
deriving DecidableEq

/-- Initial value of the actor's state variable (state_actor.rs line 415). -/
def initialActorState : ActorState := ActorState.Loading

/-- One iteration of the message loop of gitlab_tokens_actor
(state_actor.rs lines 487-522). -/
def actorStep (state : ActorState) : Message → StepResult
  | .Get => ⟨state, some state, false⟩
  | .Update => ⟨state, none, true⟩
  | .Set (.ok data) =>
    ⟨if data.isEmpty then ActorState.NoToken else ActorState.Loaded data,
      none, false⟩
  | .Set (.error err) => ⟨ActorState.Error err, none, false⟩

/-- The actor's state after processing a list of received messages in order
(the loop of gitlab_tokens_actor never breaks on a message, only when the
mailbox is closed). -/
def actorRun (state : ActorState) : List Message → ActorState
  | [] => state
  | msg :: rest => actorRun (actorStep state msg).state rest

/-- The aggregation loop of get_gitlab_data (state_actor.rs lines 387-405)
over the pipeline task results in join completion order: the first error
short-circuits to Set(Err ...), otherwise every rendered text is appended
and Set(Ok ...) is produced. -/
def getGitlabDataLoop (return_value : String) :
    List (Except String String) → Message
  | [] => Message.Set (Except.ok return_value)
  | .ok metric_value :: rest =>
    getGitlabDataLoop (return_value ++ metric_value) rest
  | .error err :: _ => Message.Set (Except.error ("Failed to get tokens: " ++ err))

/-- The Set message get_gitlab_data sends to the actor, as a function of the
spawned pipeline tasks' results in join completion order
(state_actor.rs lines 343-407). -/
def getGitlabData (task_results : List (Except String String)) : Message :=
  getGitlabDataLoop "" task_results

/-- gitlab/project.rs Project. -/
structure Project where
  id : Nat
  path_with_namespace : String
  web_url : String
deriving DecidableEq

/-- state_actor.rs MAX_CONCURRENT_REQUESTS_DEFAULT (line 23). -/
def MAX_CONCURRENT_REQUESTS_DEFAULT : Nat := 10

/-- The chunk size get_gitlab_data hands to the projects and groups pipelines:
max_concurrent_requests >> 1 (state_actor.rs lines 363 and 370). -/
def pipelineChunkArg (max_concurrent_requests : Nat) : Nat :=
  max_concurrent_requests >>> 1

/-- Rust slice chunking with a positive chunk size. -/
def chunksPos (chunk_size : Nat) : List α → List (List α)
  | [] => []
  | x :: xs => (x :: xs.take (chunk_size - 1)) :: chunksPos chunk_size (xs.drop (chunk_size - 1))
termination_by l => l.length
decreasing_by simp [List.length_drop]; omega

/-- Rust slice::chunks as called on the fetched entity list in
get_projects_tokens_metrics (line 102) and get_groups_tokens_metrics
(line 207): it panics when the chunk size is zero, modelled as none. -/
def sliceChunks (l : List α) (chunk_size : Nat) : Option (List (List α)) :=
  if chunk_size = 0 then none else some (chunksPos chunk_size l)

/-- One HTTP response as seen by OffsetBasedPagination::get_all: whether
error_for_status succeeded, the status code, the parsed rel="next" link of
the link header, the body text, and the serde decode of the body. -/
structure HttpResponse (T : Type) where
  success : Bool
  status : Nat
  link_next : Option String
  body : String
  items : Except String (List T)

/-- A network error surfaced by get_all: a failed send, a non-success
status (the reqwest error returned by error_for_status, which records the
URL and the status code), or a serde decode failure. -/
inductive FetchError
  | request (url : String)
  | status (url : String) (code : Nat)
  | decode (msg : String)
deriving DecidableEq

/-- The while-let loop of OffsetBasedPagination::get_all
(gitlab/pagination.rs lines 11-59).  The server oracle maps a URL to its
response (none models a failed send).  fuel bounds the number of page
requests; none marks fuel exhaustion (a longer chain than fuel allows).
Besides the result, the error-log lines emitted by the non-success branch
(line 47-52: url, status and response body) are returned. -/
def getAllLoop (server : String → Option (HttpResponse T)) :
    Nat → Option String → List T → List String →
    Option (Except FetchError (List T) × List String)
  | _, none, result, logs => some (Except.ok result, logs)
  | 0, some _, _, _ => none
  | fuel + 1, some current_url, result, logs =>
    match server current_url with
    | none => some (Except.error (FetchError.request current_url), logs)
    | some resp =>
      if resp.success then
        match resp.items with
        | .error e => some (Except.error (FetchError.decode e), logs)
        | .ok items =>
          getAllLoop server fuel resp.link_next (result ++ items) logs
      else
        some (Except.error (FetchError.status current_url resp.status),
          logs ++ [current_url ++ " - " ++ toString resp.status ++ " : " ++ resp.body])

/-- OffsetBasedPagination::get_all: run the loop from the starting URL with
an empty accumulator. -/
def getAll (server : String → Option (HttpResponse T)) (fuel : Nat)
    (url : String) : Option (Except FetchError (List T) × List String) :=
  getAllLoop server fuel (some url) [] []

/-- A chain of successful pages under a server: each page except the last
carries a rel="next" link to the following page's URL and the last does not.
The page item lists are collected in page order. -/
inductive PageChain (server : String → Option (HttpResponse T)) :
    String → List (List T) → Prop
  | last (url : String) (resp : HttpResponse T) (items : List T) :
      server url = some resp → resp.success = true →
      resp.items = Except.ok items → resp.link_next = none →
      PageChain server url [items]
  | more (url next_url : String) (resp : HttpResponse T) (items : List T)
      (rest : List (List T)) :
      server url = some resp → resp.success = true →
      resp.items = Except.ok items → resp.link_next = some next_url →
      PageChain server next_url rest →
      PageChain server url (items :: rest)

/-- A path of n successful linked pages from one URL to another under a
server (used to reach a failing page). -/
inductive PagePathTo (server : String → Option (HttpResponse T)) :
    String → String → Nat → Prop
  | refl (url : String) : PagePathTo server url url 0
  | step (url next_url last_url : String) (n : Nat) (resp : HttpResponse T)
      (items : List T) :
      server url = some resp → resp.success = true →
      resp.items = Except.ok items → resp.link_next = some next_url →
      PagePathTo server next_url last_url n →
      PagePathTo server url last_url (n + 1)

/-- gitlab/group.rs Group. -/
structure Group where
  id : Nat
  parent_id : Option Nat
  path : String
  web_url : String
deriving DecidableEq

/-- The shared group id cache (HashMap<usize, Group> behind Arc<Mutex<..>>),
modelled as an association list whose most recent insertion comes first. -/
abbrev GroupCache := List (Nat × Group)

/-- HashMap::get / Entry::Occupied lookup on the cache. -/
def cacheLookup (cache : GroupCache) (key : Nat) : Option Group :=
  (cache.find? (fun kv => kv.1 == key)).map (fun kv => kv.2)

/-- HashMap entry(key).or_insert_with(gen).clone(): returns the entry's
value (the existing one if present, the supplied one otherwise) together
with the cache afterwards. -/
def cacheEntryOrInsert (cache : GroupCache) (key : Nat) (group : Group) :
    Group × GroupCache :=
  match cacheLookup cache key with
  | some existing => (existing, cache)
  | none => (group, (key, group) :: cache)

/-- The while-let loop of group::get_full_path (gitlab/group.rs lines
63-103).  fetch is the GET /groups/:id oracle (an error models a failed or
undecodable response); fuel bounds the parent-chain walk (none marks
exhaustion, which corresponds to the source looping on a parent cycle).
Returns the result, the cache afterwards (the shared cache retains every
insertion even when the call errors out), and the ids fetched from the
network in order. -/
def getFullPathLoop (fetch : Nat → Except String Group) :
    Nat → Group → String → GroupCache → List Nat →
    Option (Except String String × GroupCache × List Nat)
  | fuel, tmp_group, res, cache, fetched =>
    match tmp_group.parent_id with
    | none => some (Except.ok res, cache, fetched)
    | some parent_group_id =>
      match fuel with
      | 0 => none
      | fuel + 1 =>
        match cacheLookup cache parent_group_id with
        | some cached_group =>
          getFullPathLoop fetch fuel cached_group
            (cached_group.path ++ "/" ++ res) cache fetched
        | none =>
          match fetch parent_group_id with
          | .error e => some (Except.error e, cache, fetched ++ [parent_group_id])
          | .ok group_from_gitlab =>
            match cacheEntryOrInsert cache group_from_gitlab.id group_from_gitlab with
            | (tmp_group, cache) =>
              getFullPathLoop fetch fuel tmp_group
                (tmp_group.path ++ "/" ++ res) cache
                (fetched ++ [parent_group_id])

/-- group::get_full_path (gitlab/group.rs lines 45-106): res starts as the
argument group's path; the starting tmp_group is the cache entry for the
argument group's id, inserted if absent; then the parent chain is walked. -/
def get_full_path (fetch : Nat → Except String Group) (fuel : Nat)
    (group : Group) (cache : GroupCache) :
    Option (Except String String × GroupCache × List Nat) :=
  match cacheEntryOrInsert cache group.id group with
  | (tmp_group, cache) =>
    getFullPathLoop fetch fuel tmp_group group.path cache []

/-- A sequence of get_full_path calls threading the shared cache (the
result strings and fetch lists are irrelevant here; only the cache is
kept).  none marks fuel exhaustion in some call. -/
def resolveSeq (fetch : Nat → Except String Group) (fuel : Nat) :
    List Group → GroupCache → Option GroupCache
  | [], cache => some cache
  | group :: rest, cache =>
    match get_full_path fetch fuel group cache with
    | none => none
    | some (_, cache, _) => resolveSeq fetch fuel rest cache

/-- gitlab/user.rs User. -/
structure User where
  id : Nat
  is_admin : Bool
  username : String
deriving DecidableEq

/-- Literal-text matcher: consume the given characters from the front. -/
def matchLit : List Char → List Char → Option (List Char)
  | [], rest => some rest
  | _, [] => none
  | p :: ps, c :: cs => if p = c then matchLit ps cs else none

/-- A lowercase hexadecimal digit, as matched by [0-9a-f]. -/
def isHexDigitChar (c : Char) : Bool :=
  ('0' ≤ c && c ≤ '9') || ('a' ≤ c && c ≤ 'f')

/-- Whether the regex (project|group)_[0-9]+_bot_[0-9a-f]\x7b32,\x7d matches at
the head of the character list. -/
def botPatternAt (cs : List Char) : Bool :=
  match (matchLit "project_".data cs).orElse (fun _ => matchLit "group_".data cs) with
  | none => false
  | some rest =>
    let digits := rest.takeWhile (fun c => '0' ≤ c && c ≤ '9')
    if digits.isEmpty then false
    else
      match matchLit "_bot_".data (rest.drop digits.length) with
      | none => false
      | some rest2 => 32 ≤ (rest2.takeWhile isHexDigitChar).length

/-- Regex::is_match of the human_users_re regex of
get_users_tokens_metrics (state_actor.rs line 301): an unanchored search,
true when the bot pattern matches at any position of the username. -/
def isBotUsername (username : String) : Bool :=
  username.data.tails.any botPatternAt

/-- Reverse lookup in the user_ids map built by HashMap collect (the last
inserted binding for a key wins). -/
def userIdsLookup (user_ids : List (Nat × String)) (key : Nat) : Option String :=
  (user_ids.reverse.find? (fun kv => kv.1 == key)).map (fun kv => kv.2)

/-- The users-pipeline endpoints in the order get_users_tokens_metrics may
consult them. -/
inductive UsersApiCall
  | currentUser
  | listUsers
  | listPersonalAccessTokens
deriving DecidableEq

/-- Oracle for the three users-pipeline endpoints: GET /user (who am I),
GET /users, GET /personal_access_tokens.  An error models any network or
decode failure of that call. -/
structure UsersApi where
  current_user : Except String User
  users : Except String (List User)
  personal_access_tokens : Except String (List PersonalAccessToken)

/-- get_users_tokens_metrics (state_actor.rs lines 272-337).  date_now is
the clock build reads.  Besides the pipeline's result the list of endpoints
actually consulted is returned, in call order. -/
def get_users_tokens_metrics (api : UsersApi) (skip_non_expiring_tokens : Bool)
    (date_now : Date) : Except String String × List UsersApiCall :=
  match api.current_user with
  | .error e => (Except.error e, [UsersApiCall.currentUser])
  | .ok current_user =>
    if current_user.is_admin then
      match api.users with
      | .error e =>
        (Except.error e, [UsersApiCall.currentUser, UsersApiCall.listUsers])
      | .ok users =>
        let user_ids : List (Nat × String) :=
          (users.filter (fun user => !(isBotUsername user.username))).map
            (fun user => (user.id, user.username))
        match api.personal_access_tokens with
        | .error e =>
          (Except.error e, [UsersApiCall.currentUser, UsersApiCall.listUsers,
            UsersApiCall.listPersonalAccessTokens])
        | .ok personal_access_tokens =>
          let kept := personal_access_tokens.filter
            (fun pat => (userIdsLookup user_ids pat.user_id).isSome)
          let res := kept.foldl (fun acc pat =>
            if !(skip_non_expiring_tokens && pat.expires_at.isNone) then
              let username := (userIdsLookup user_ids pat.user_id).getD ""
              acc ++ build (Token.User pat username) date_now
            else acc) ""
          (Except.ok res, [UsersApiCall.currentUser, UsersApiCall.listUsers,
            UsersApiCall.listPersonalAccessTokens])
    else
      (Except.ok "", [UsersApiCall.currentUser])

/-! Concrete instances used by the witness theorems. -/

/-- A three-page server: p0 → p1 → p2, each page carrying its items. -/
def chainServer3 : String → Option (HttpResponse Nat) := fun u =>
  if u = "p0" then some ⟨true, 200, some "p1", "", Except.ok [1, 2]⟩
  else if u = "p1" then some ⟨true, 200, some "p2", "", Except.ok [3]⟩
  else if u = "p2" then some ⟨true, 200, none, "", Except.ok [4, 5]⟩
  else none

/-- The same three pages, but page p1 lacks the rel="next" link even though
page p2 is still served. -/
def chainServer3Cut : String → Option (HttpResponse Nat) := fun u =>
  if u = "p0" then some ⟨true, 200, some "p1", "", Except.ok [1, 2]⟩
  else if u = "p1" then some ⟨true, 200, none, "", Except.ok [3]⟩
  else if u = "p2" then some ⟨true, 200, none, "", Except.ok [4, 5]⟩
  else none

/-- A chain whose second page answers with a 500 status and a body. -/
def chainServerFail : String → Option (HttpResponse Nat) := fun u =>
  if u = "p0" then some ⟨true, 200, some "p1", "", Except.ok [1, 2]⟩
  else if u = "p1" then some ⟨false, 500, none, "oops", Except.error "x"⟩
  else none

/-- Root group of the concrete three-level chain. -/
def groupA : Group := ⟨1, none, "A", "https://g/A"⟩

/-- Middle group of the concrete three-level chain (parent groupA). -/
def groupB : Group := ⟨2, some 1, "B", "https://g/A/B"⟩

/-- Leaf group of the concrete three-level chain (parent groupB). -/
def groupC : Group := ⟨3, some 2, "C", "https://g/A/B/C"⟩

/-- An unrelated group sitting in the cache beforehand. -/
def groupX : Group := ⟨5, none, "X", "https://g/X"⟩

/-- GET /groups/:id oracle serving the concrete chain. -/
def fetchABC : Nat → Except String Group := fun id =>
  if id = 1 then Except.ok groupA
  else if id = 2 then Except.ok groupB
  else Except.error "404"

/-- Substring occurrence test (used to check that a rendered block omits a
label). -/
def containsSub (pat s : String) : Bool :=
  s.data.tails.any (fun t => pat.data.isPrefixOf t)

/-- A users API whose identity check reports a non-administrator; the other
two endpoints would fail if they were consulted. -/
def nonAdminApi : UsersApi :=
  { current_user := Except.ok ⟨7, false, "me"⟩
  , users := Except.error "unreachable"
  , personal_access_tokens := Except.error "unreachable" }

/-- Project access token expiring 30 days after the witness clock. -/
def tokenT1 : AccessToken :=
  ⟨AccessLevel.Guest, true, some 30, 1, "T1", false, [AccessTokenScope.Api]⟩

/-- Revoked project access token that expired 5 days before the witness
clock. -/
def tokenT2 : AccessToken :=
  ⟨AccessLevel.Guest, true, some (-5), 2, "T2", true, [AccessTokenScope.Api]⟩

/-- Personal access token with no expiry date. -/
def tokenNoExpiry : PersonalAccessToken :=
  ⟨true, none, 3, "T3", false, [PersonalAccessTokenScope.Api], 9⟩

/-! Helper lemmas. -/

theorem getFullPathLoop_parent_none {fetch : Nat → Except String Group}
    {fuel : Nat} {tmp : Group} {res : String} {cache : GroupCache}
    {fetched : List Nat} (h : tmp.parent_id = none) :
    getFullPathLoop fetch fuel tmp res cache fetched
      = some (Except.ok res, cache, fetched) := by
  unfold getFullPathLoop
  rw [h]

theorem getFullPathLoop_fuel_zero {fetch : Nat → Except String Group}
    {tmp : Group} {res : String} {cache : GroupCache} {fetched : List Nat}
    {pid : Nat} (h : tmp.parent_id = some pid) :
    getFullPathLoop fetch 0 tmp res cache fetched = none := by
  unfold getFullPathLoop
  rw [h]

theorem getFullPathLoop_parent_some {fetch : Nat → Except String Group}
    {fuel : Nat} {tmp : Group} {res : String} {cache : GroupCache}
    {fetched : List Nat} {pid : Nat} (h : tmp.parent_id = some pid) :
    getFullPathLoop fetch (fuel + 1) tmp res cache fetched
      = match cacheLookup cache pid with
        | some cached_group =>
          getFullPathLoop fetch fuel cached_group
            (cached_group.path ++ "/" ++ res) cache fetched
        | none =>
          match fetch pid with
          | .error e => some (Except.error e, cache, fetched ++ [pid])
          | .ok group_from_gitlab =>
            match cacheEntryOrInsert cache group_from_gitlab.id group_from_gitlab with
            | (tmp_group, cache) =>
              getFullPathLoop fetch fuel tmp_group
                (tmp_group.path ++ "/" ++ res) cache (fetched ++ [pid]) := by
  conv_lhs => unfold getFullPathLoop
  rw [h]

theorem cacheLookup_entryOrInsert {cache : GroupCache} {key : Nat} {g : Group}
    {k : Nat} {gv : Group} (h : cacheLookup cache k = some gv) :
    cacheLookup (cacheEntryOrInsert cache key g).2 k = some gv := by
  unfold cacheEntryOrInsert
  cases hl : cacheLookup cache key with
  | some existing => simpa using h
  | none =>
    have hk : (key == k) = false := by
      refine beq_eq_false_iff_ne.mpr (fun hkk => ?_)
      rw [hkk, h] at hl
      cases hl
    simp only [cacheLookup, List.find?_cons, hk]
    exact h

theorem getFullPathLoop_cache_mono (fetch : Nat → Except String Group) :
    ∀ (fuel : Nat) (tmp : Group) (res : String) (cache : GroupCache)
      (fetched : List Nat) (out : Except String String × GroupCache × List Nat),
    getFullPathLoop fetch fuel tmp res cache fetched = some out →
    ∀ k gv, cacheLookup cache k = some gv → cacheLookup out.2.1 k = some gv := by
  intro fuel
  induction fuel with
  | zero =>
    intro tmp res cache fetched out hout k gv hk
    cases htmp : tmp.parent_id with
    | none =>
      rw [getFullPathLoop_parent_none htmp] at hout
      cases hout
      exact hk
    | some pid =>
      rw [getFullPathLoop_fuel_zero htmp] at hout
      cases hout
  | succ fuel ih =>
    intro tmp res cache fetched out hout k gv hk
    cases htmp : tmp.parent_id with
    | none =>
      rw [getFullPathLoop_parent_none htmp] at hout
      cases hout
      exact hk
    | some pid =>
      rw [getFullPathLoop_parent_some htmp] at hout
      cases hcl : cacheLookup cache pid with
      | some cached_group =>
        rw [hcl] at hout
        exact ih _ _ _ _ _ hout k gv hk
      | none =>
        rw [hcl] at hout
        cases hf : fetch pid with
        | error e =>
          rw [hf] at hout
          cases hout
          exact hk
        | ok g =>
          rw [hf] at hout
          exact ih _ _ _ _ _ hout k gv (cacheLookup_entryOrInsert hk)

theorem get_full_path_cache_mono (fetch : Nat → Except String Group)
    (fuel : Nat) (group : Group) (cache : GroupCache)
    (out : Except String String × GroupCache × List Nat)
    (hout : get_full_path fetch fuel group cache = some out) :
    ∀ k gv, cacheLookup cache k = some gv → cacheLookup out.2.1 k = some gv := by
  intro k gv hk
  unfold get_full_path at hout
  exact getFullPathLoop_cache_mono fetch fuel _ _ _ _ out hout k gv
    (cacheLookup_entryOrInsert hk)

theorem getAllLoop_chain {T : Type} {server : String → Option (HttpResponse T)}
    {url : String} {pages : List (List T)} (hchain : PageChain server url pages) :
    ∀ fuel, pages.length ≤ fuel → ∀ (acc : List T) (logs : List String),
    getAllLoop server fuel (some url) acc logs
      = some (Except.ok (acc ++ pages.flatten), logs) := by
  induction hchain with
  | last url resp items hs hsucc hitems hnext =>
    intro fuel hfuel acc logs
    obtain ⟨fuel, rfl⟩ : ∃ f, fuel = f + 1 := by
      cases fuel with
      | zero => simp at hfuel
      | succ f => exact ⟨f, rfl⟩
    simp [getAllLoop, hs, hsucc, hitems, hnext]
  | more url next_url resp items rest hs hsucc hitems hnext _ ih =>
    intro fuel hfuel acc logs
    obtain ⟨fuel, rfl⟩ : ∃ f, fuel = f + 1 := by
      cases fuel with
      | zero => simp at hfuel
      | succ f => exact ⟨f, rfl⟩
    have hstep : getAllLoop server (fuel + 1) (some url) acc logs
        = getAllLoop server fuel (some next_url) (acc ++ items) logs := by
      simp [getAllLoop, hs, hsucc, hitems, hnext]
    have hlen : rest.length ≤ fuel := by
      simp only [List.length_cons] at hfuel
      omega
    rw [hstep, ih fuel hlen (acc ++ items) logs]
    simp

theorem getAllLoop_pathTo {T : Type} {server : String → Option (HttpResponse T)}
    {url fail_url : String} {n : Nat} (hpath : PagePathTo server url fail_url n) :
    ∀ fuel, n < fuel → ∀ (acc : List T) (logs : List String)
      (resp : HttpResponse T),
    server fail_url = some resp → resp.success = false →
    getAllLoop server fuel (some url) acc logs
      = some (Except.error (FetchError.status fail_url resp.status),
          logs ++ [fail_url ++ " - " ++ toString resp.status ++ " : " ++ resp.body]) := by
  induction hpath with
  | refl url =>
    intro fuel hfuel acc logs resp hresp hfail
    obtain ⟨fuel, rfl⟩ : ∃ f, fuel = f + 1 := by
      cases fuel with
      | zero => omega
      | succ f => exact ⟨f, rfl⟩
    simp [getAllLoop, hresp, hfail]
  | step url next_url last_url n resp items hs hsucc hitems hnext _ ih =>
    intro fuel hfuel acc logs resp2 hresp2 hfail2
    obtain ⟨fuel, rfl⟩ : ∃ f, fuel = f + 1 := by
      cases fuel with
      | zero => omega
      | succ f => exact ⟨f, rfl⟩
    have hstep : getAllLoop server (fuel + 1) (some url) acc logs
        = getAllLoop server fuel (some next_url) (acc ++ items) logs := by
      simp [getAllLoop, hs, hsucc, hitems, hnext]
    rw [hstep]
    exact ih fuel (by omega) (acc ++ items) logs resp2 hresp2 hfail2

theorem getGitlabDataLoop_all_ok : ∀ (outs : List String) (acc : String),
    getGitlabDataLoop acc (outs.map Except.ok)
      = Message.Set (Except.ok (outs.foldl (fun a b => a ++ b) acc))
  | [], _ => rfl
  | s :: rest, acc => getGitlabDataLoop_all_ok rest (acc ++ s)

theorem getGitlabDataLoop_first_error :
    ∀ (pre : List (Except String String)) (e : String)
      (post : List (Except String String)) (acc : String),
    (∀ x ∈ pre, ∃ s, x = Except.ok s) →
    getGitlabDataLoop acc (pre ++ Except.error e :: post)
      = Message.Set (Except.error ("Failed to get tokens: " ++ e))
  | [], _, _, _, _ => rfl
  | x :: pre, e, post, acc, h => by
    obtain ⟨s, rfl⟩ := h x (List.mem_cons_self _ _)
    exact getGitlabDataLoop_first_error pre e post (acc ++ s)
      (fun y hy => h y (List.mem_cons_of_mem _ hy))

theorem resolveSeq_cache_mono (fetch : Nat → Except String Group) (fuel : Nat) :
    ∀ (groups : List Group) (cache cache' : GroupCache),
    resolveSeq fetch fuel groups cache = some cache' →
    ∀ k gv, cacheLookup cache k = some gv → cacheLookup cache' k = some gv := by
  intro groups
  induction groups with
  | nil =>
    intro cache cache' h k gv hk
    simp only [resolveSeq] at h
    cases h
    exact hk
  | cons g rest ih =>
    intro cache cache' h k gv hk
    simp only [resolveSeq] at h
    cases hg : get_full_path fetch fuel g cache with
    | none => rw [hg] at h; cases h
    | some out =>
      obtain ⟨r, c, f⟩ := out
      rw [hg] at h
      exact ih c cache' h k gv
        (get_full_path_cache_mono fetch fuel g cache (r, c, f) hg k gv hk)

/-! Claim theorems. -/

/-- Claim C2: the state actor's transition function maps messages to states
exactly as specified: the initial state is Loading; Set(Ok "") yields
NoToken; Set(Ok s) with s nonempty yields Loaded s; Set(Err m) yields
Error m; and after any Set the loop keeps processing the remaining
messages. -/
theorem actor_set_transitions :
    initialActorState = ActorState.Loading
    ∧ (∀ st, (actorStep st (Message.Set (Except.ok ""))).state = ActorState.NoToken)
    ∧ (∀ st s, s ≠ "" →
        (actorStep st (Message.Set (Except.ok s))).state = ActorState.Loaded s)
    ∧ (∀ st m, (actorStep st (Message.Set (Except.error m))).state = ActorState.Error m)
    ∧ (∀ st r rest, actorRun st (Message.Set r :: rest)
        = actorRun (actorStep st (Message.Set r)).state rest) := by
  refine ⟨rfl, fun st => rfl, fun st s hs => ?_, fun st m => rfl, fun st r rest => rfl⟩
  simp [actorStep, String.isEmpty_iff, hs]

/-- Witness for C2 on the concrete inputs of the specification's actor
scenario. -/
theorem actor_set_transitions_witness :
    ("line\n" : String) ≠ ""
    ∧ (actorStep ActorState.Loading (Message.Set (Except.ok "line\n"))).state
        = ActorState.Loaded "line\n" :=
  ⟨by decide, actor_set_transitions.2.2.1 ActorState.Loading "line\n" (by decide)⟩

/-- Claim C9: Get replies with a copy of the state and leaves it unchanged,
Update only spawns a refresh task and leaves it unchanged, any state change
comes from a Set message, and a message sequence without Set leaves the
state untouched. -/
theorem actor_only_set_mutates :
    (∀ st, (actorStep st Message.Get).state = st
      ∧ (actorStep st Message.Get).reply = some st
      ∧ (actorStep st Message.Get).spawned_refresh = false)
    ∧ (∀ st, (actorStep st Message.Update).state = st
      ∧ (actorStep st Message.Update).reply = none
      ∧ (actorStep st Message.Update).spawned_refresh = true)
    ∧ (∀ st msg, (actorStep st msg).state ≠ st → ∃ r, msg = Message.Set r)
    ∧ (∀ st msgs, (∀ msg ∈ msgs, ∀ r, msg ≠ Message.Set r) →
        actorRun st msgs = st) := by
  refine ⟨fun st => ⟨rfl, rfl, rfl⟩, fun st => ⟨rfl, rfl, rfl⟩, ?_, ?_⟩
  · intro st msg h
    cases msg with
    | Get => exact absurd rfl h
    | Update => exact absurd rfl h
    | Set r => exact ⟨r, rfl⟩
  · intro st msgs h
    induction msgs generalizing st with
    | nil => rfl
    | cons msg rest ih =>
      have hmsg := h msg (List.mem_cons_self _ _)
      have hstep : (actorStep st msg).state = st := by
        cases msg with
        | Get => rfl
        | Update => rfl
        | Set r => exact absurd rfl (hmsg r)
      have hrun : actorRun st (msg :: rest) = actorRun (actorStep st msg).state rest := rfl
      rw [hrun, hstep]
      exact ih st (fun m hm => h m (List.mem_cons_of_mem _ hm))

/-- Witness for C9: a Get/Update-only message sequence leaves a loaded
snapshot in place. -/
theorem actor_only_set_mutates_witness :
    actorRun (ActorState.Loaded "snap") [Message.Get, Message.Update, Message.Get]
      = ActorState.Loaded "snap" :=
  actor_only_set_mutates.2.2.2 _ _ (by intro m hm r h; subst h; simp at hm)

/-- Claim C1: the refresh cycle is all-or-nothing.  If any spawned pipeline
task result is an error, get_gitlab_data sends Set(Err ...) built from the
first error in join order and no sibling output is published; if every task
returns Ok, it sends Set(Ok s) with s the concatenation of all pipelines'
rendered text. -/
theorem refresh_all_or_nothing :
    (∀ (pre post : List (Except String String)) (e : String),
      (∀ x ∈ pre, ∃ s, x = Except.ok s) →
      getGitlabData (pre ++ Except.error e :: post)
        = Message.Set (Except.error ("Failed to get tokens: " ++ e)))
    ∧ (∀ outs : List String,
      getGitlabData (outs.map Except.ok) = Message.Set (Except.ok (String.join outs))) := by
  constructor
  · intro pre post e h
    exact getGitlabDataLoop_first_error pre e post "" h
  · intro outs
    exact getGitlabDataLoop_all_ok outs ""

/-- Witness for C1: a failing middle pipeline discards the completed
sibling outputs. -/
theorem refresh_all_or_nothing_witness :
    getGitlabData [Except.ok "a\n", Except.error "boom", Except.ok "b\n"]
      = Message.Set (Except.error ("Failed to get tokens: " ++ "boom")) :=
  refresh_all_or_nothing.1 [Except.ok "a\n"] [Except.ok "b\n"] "boom"
    (by intro x hx; simp at hx; exact ⟨"a\n", hx⟩)

/-- Claim C10: get_gitlab_data passes max_concurrent_requests >> 1 to the
projects and groups pipelines as chunk size; for a configured value of 0 or
1 that size is 0 and slice::chunks(0) panics, while any value of at least 2
gives a positive chunk size on which chunks succeeds. -/
theorem pipeline_chunk_size_panic :
    (∀ mcr : Nat, mcr ≤ 1 → pipelineChunkArg mcr = 0)
    ∧ (∀ projects : List Project, sliceChunks projects 0 = none)
    ∧ (∀ mcr : Nat, 2 ≤ mcr →
        1 ≤ pipelineChunkArg mcr
        ∧ ∀ projects : List Project,
            (sliceChunks projects (pipelineChunkArg mcr)).isSome = true) := by
  refine ⟨?_, ?_, ?_⟩
  · intro mcr h
    simp only [pipelineChunkArg, Nat.shiftRight_eq_div_pow, pow_one]
    omega
  · intro projects
    simp [sliceChunks]
  · intro mcr h
    have h1 : 1 ≤ pipelineChunkArg mcr := by
      simp only [pipelineChunkArg, Nat.shiftRight_eq_div_pow, pow_one]
      omega
    refine ⟨h1, fun projects => ?_⟩
    simp only [sliceChunks, Option.isSome_some, if_neg (by omega : ¬pipelineChunkArg mcr = 0)]

/-- Witness for C10 at the default-adjacent concrete values 1 and 2. -/
theorem pipeline_chunk_size_panic_witness :
    pipelineChunkArg 1 = 0
    ∧ sliceChunks [Project.mk 1 "p" "u"] 0 = none
    ∧ 1 ≤ pipelineChunkArg 2 :=
  ⟨pipeline_chunk_size_panic.1 1 (by decide),
    pipeline_chunk_size_panic.2.1 _,
    (pipeline_chunk_size_panic.2.2 2 (by decide)).1⟩

/-- Claim C3: for a chain of N pages where each page but the last carries a
rel="next" link, get_all returns the concatenation of the N pages' item
lists in page order; and when some page of the chain lacks the next link,
the traversal stops there, so the result is the pages up to and including
that page even if the server still serves later pages. -/
theorem get_all_chain_concat :
    (∀ (T : Type) (server : String → Option (HttpResponse T)) (url : String)
        (pages : List (List T)) (fuel : Nat),
      PageChain server url pages → pages.length ≤ fuel →
      getAll server fuel url = some (Except.ok pages.flatten, []))
    ∧ (∀ (T : Type) (server : String → Option (HttpResponse T)) (url : String)
        (pages : List (List T)) (k fuel : Nat),
      k < pages.length → PageChain server url (pages.take (k + 1)) →
      pages.length ≤ fuel →
      getAll server fuel url = some (Except.ok (pages.take (k + 1)).flatten, [])) := by
  constructor
  · intro T server url pages fuel hchain hfuel
    have := getAllLoop_chain hchain fuel hfuel [] []
    simpa [getAll] using this
  · intro T server url pages k fuel hk hchain hfuel
    have hlen : (pages.take (k + 1)).length ≤ fuel := by
      simp only [List.length_take]
      omega
    have := getAllLoop_chain hchain fuel hlen [] []
    simpa [getAll] using this

/-- Witness for C3: the three-page server yields all items in order, and
cutting the link on the middle page truncates the result to the first two
pages even though the third page is still served. -/
theorem get_all_chain_concat_witness :
    getAll chainServer3 3 "p0" = some (Except.ok [1, 2, 3, 4, 5], [])
    ∧ getAll chainServer3Cut 3 "p0" = some (Except.ok [1, 2, 3], []) := by
  constructor
  · have hchain : PageChain chainServer3 "p0" [[1, 2], [3], [4, 5]] :=
      PageChain.more "p0" "p1" _ [1, 2] _ rfl rfl rfl rfl
        (PageChain.more "p1" "p2" _ [3] _ rfl rfl rfl rfl
          (PageChain.last "p2" _ [4, 5] rfl rfl rfl rfl))
    have := get_all_chain_concat.1 Nat chainServer3 "p0" [[1, 2], [3], [4, 5]] 3
      hchain (by decide)
    simpa using this
  · have hchain : PageChain chainServer3Cut "p0" ([[1, 2], [3], [4, 5]].take 2) :=
      PageChain.more "p0" "p1" _ [1, 2] _ rfl rfl rfl rfl
        (PageChain.last "p1" _ [3] rfl rfl rfl rfl)
    have := get_all_chain_concat.2 Nat chainServer3Cut "p0" [[1, 2], [3], [4, 5]] 1 3
      (by decide) hchain (by decide)
    simpa using this

/-- Claim C4: a page answering with a non-success status aborts the whole
fetch: get_all returns the status error (no items at all, the partially
accumulated pages are discarded) and logs a diagnostic line carrying the
response body. -/
theorem get_all_status_aborts :
    ∀ (T : Type) (server : String → Option (HttpResponse T))
      (url fail_url : String) (n fuel : Nat) (resp : HttpResponse T),
    PagePathTo server url fail_url n → n < fuel →
    server fail_url = some resp → resp.success = false →
    getAll server fuel url
      = some (Except.error (FetchError.status fail_url resp.status),
          [fail_url ++ " - " ++ toString resp.status ++ " : " ++ resp.body]) := by
  intro T server url fail_url n fuel resp hpath hfuel hresp hfail
  have := getAllLoop_pathTo hpath fuel hfuel [] [] resp hresp hfail
  simpa [getAll] using this

/-- Witness for C4: a 500 on the second page discards the first page's
items and surfaces the body in the diagnostic log line. -/
theorem get_all_status_aborts_witness :
    getAll chainServerFail 2 "p0"
      = some (Except.error (FetchError.status "p1" 500), ["p1 - 500 : oops"]) := by
  have hpath : PagePathTo chainServerFail "p0" "p1" 1 :=
    PagePathTo.step "p0" "p1" "p1" 0 _ [1, 2] rfl rfl rfl rfl (PagePathTo.refl "p1")
  have := get_all_status_aborts Nat chainServerFail "p0" "p1" 1 2
    ⟨false, 500, none, "oops", Except.error "x"⟩ hpath (by decide) rfl rfl
  simpa using this

/-- Claim C5: for every three-level chain A (no parent) ← B ← C with
distinct ids, resolving C from an empty cache yields "A/B/C" while fetching
B then A from the network and caching all three groups; resolving B
afterwards against the resulting cache performs no network fetch at all. -/
theorem get_full_path_three_level :
    ∀ (fetch : Nat → Except String Group) (ga gb gc : Group),
    ga.parent_id = none → gb.parent_id = some ga.id → gc.parent_id = some gb.id →
    ga.id ≠ gb.id → ga.id ≠ gc.id → gb.id ≠ gc.id →
    fetch gb.id = Except.ok gb → fetch ga.id = Except.ok ga →
    get_full_path fetch 2 gc []
      = some (Except.ok (ga.path ++ "/" ++ (gb.path ++ "/" ++ gc.path)),
          [(ga.id, ga), (gb.id, gb), (gc.id, gc)], [gb.id, ga.id])
    ∧ get_full_path fetch 2 gb [(ga.id, ga), (gb.id, gb), (gc.id, gc)]
      = some (Except.ok (ga.path ++ "/" ++ gb.path),
          [(ga.id, ga), (gb.id, gb), (gc.id, gc)], []) := by
  intro fetch ga gb gc hpa hpb hpc hab hac hbc hfb hfa
  have h1 : (gc.id == gb.id) = false := beq_eq_false_iff_ne.mpr (Ne.symm hbc)
  have h2 : (gb.id == ga.id) = false := beq_eq_false_iff_ne.mpr (Ne.symm hab)
  have h3 : (gc.id == ga.id) = false := beq_eq_false_iff_ne.mpr (Ne.symm hac)
  have h4 : (ga.id == gb.id) = false := beq_eq_false_iff_ne.mpr hab
  have l0 : cacheLookup [] gc.id = none := rfl
  have e1 : cacheEntryOrInsert [] gc.id gc = (gc, [(gc.id, gc)]) := rfl
  have l1 : cacheLookup [(gc.id, gc)] gb.id = none := by
    simp [cacheLookup, List.find?, h1]
  have e2 : cacheEntryOrInsert [(gc.id, gc)] gb.id gb
      = (gb, [(gb.id, gb), (gc.id, gc)]) := by
    simp [cacheEntryOrInsert, l1]
  have l2 : cacheLookup [(gb.id, gb), (gc.id, gc)] ga.id = none := by
    simp [cacheLookup, List.find?, h2, h3]
  have e3 : cacheEntryOrInsert [(gb.id, gb), (gc.id, gc)] ga.id ga
      = (ga, [(ga.id, ga), (gb.id, gb), (gc.id, gc)]) := by
    simp [cacheEntryOrInsert, l2]
  constructor
  · simp only [get_full_path, e1]
    rw [getFullPathLoop_parent_some hpc]
    simp only [l1, hfb, e2]
    rw [getFullPathLoop_parent_some hpb]
    simp only [l2, hfa, e3]
    rw [getFullPathLoop_parent_none hpa]
    rfl
  · have lb : cacheLookup [(ga.id, ga), (gb.id, gb), (gc.id, gc)] gb.id = some gb := by
      simp [cacheLookup, List.find?, h4]
    have eb : cacheEntryOrInsert [(ga.id, ga), (gb.id, gb), (gc.id, gc)] gb.id gb
        = (gb, [(ga.id, ga), (gb.id, gb), (gc.id, gc)]) := by
      simp [cacheEntryOrInsert, lb]
    have la : cacheLookup [(ga.id, ga), (gb.id, gb), (gc.id, gc)] ga.id = some ga := by
      simp [cacheLookup, List.find?]
    simp only [get_full_path, eb]
    rw [getFullPathLoop_parent_some hpb]
    simp only [la]
    rw [getFullPathLoop_parent_none hpa]

/-- Witness for C5 at the concrete chain groupA ← groupB ← groupC. -/
theorem get_full_path_three_level_witness :
    get_full_path fetchABC 2 groupC []
      = some (Except.ok ("A" ++ "/" ++ ("B" ++ "/" ++ "C")),
          [(1, groupA), (2, groupB), (3, groupC)], [2, 1])
    ∧ get_full_path fetchABC 2 groupB [(1, groupA), (2, groupB), (3, groupC)]
      = some (Except.ok ("A" ++ "/" ++ "B"),
          [(1, groupA), (2, groupB), (3, groupC)], []) :=
  get_full_path_three_level fetchABC groupA groupB groupC rfl rfl rfl
    (by decide) (by decide) (by decide) rfl rfl

/-- Claim C6: the group id cache is append-only.  Every access inserts only
when the id is absent, so any binding present in the cache before a
get_full_path call (or before any sequence of such calls) is still present,
unchanged, afterwards. -/
theorem group_cache_append_only :
    (∀ (fetch : Nat → Except String Group) (fuel : Nat) (group : Group)
        (cache : GroupCache) (out : Except String String × GroupCache × List Nat),
      get_full_path fetch fuel group cache = some out →
      ∀ k gv, cacheLookup cache k = some gv → cacheLookup out.2.1 k = some gv)
    ∧ (∀ (fetch : Nat → Except String Group) (fuel : Nat) (groups : List Group)
        (cache cache' : GroupCache),
      resolveSeq fetch fuel groups cache = some cache' →
      ∀ k gv, cacheLookup cache k = some gv → cacheLookup cache' k = some gv) :=
  ⟨get_full_path_cache_mono, resolveSeq_cache_mono⟩

/-- Witness for C6: a pre-existing binding for id 5 survives a resolution
that inserts three new groups. -/
theorem group_cache_append_only_witness :
    cacheLookup [(1, groupA), (2, groupB), (3, groupC), (5, groupX)] 5 = some groupX :=
  group_cache_append_only.1 fetchABC 2 groupC [(5, groupX)]
    (Except.ok ("A" ++ "/" ++ ("B" ++ "/" ++ "C")),
      [(1, groupA), (2, groupB), (3, groupC), (5, groupX)], [2, 1])
    rfl 5 groupX rfl

/-- Claim C7: in the users pipeline a successful identity check reporting a
non-administrator yields Ok "" without consulting the users or personal
access tokens endpoints (the soft failure); an error from the identity
check, from listing users, or from listing personal access tokens is
returned as Err, and any error among the pipeline task results fails the
whole refresh with Set(Err ...). -/
theorem users_pipeline_soft_and_hard :
    (∀ (api : UsersApi) (skip : Bool) (now : Date) (current_user : User),
      api.current_user = Except.ok current_user → current_user.is_admin = false →
      get_users_tokens_metrics api skip now
        = (Except.ok "", [UsersApiCall.currentUser]))
    ∧ (∀ (api : UsersApi) (skip : Bool) (now : Date) (e : String),
      api.current_user = Except.error e →
      (get_users_tokens_metrics api skip now).1 = Except.error e)
    ∧ (∀ (api : UsersApi) (skip : Bool) (now : Date) (current_user : User)
        (e : String),
      api.current_user = Except.ok current_user → current_user.is_admin = true →
      api.users = Except.error e →
      (get_users_tokens_metrics api skip now).1 = Except.error e)
    ∧ (∀ (api : UsersApi) (skip : Bool) (now : Date) (current_user : User)
        (users : List User) (e : String),
      api.current_user = Except.ok current_user → current_user.is_admin = true →
      api.users = Except.ok users → api.personal_access_tokens = Except.error e →
      (get_users_tokens_metrics api skip now).1 = Except.error e)
    ∧ (∀ (results : List (Except String String)) (e : String),
      (∀ x ∈ results, ∃ s, x = Except.ok s) →
      getGitlabData (results ++ [Except.error e])
        = Message.Set (Except.error ("Failed to get tokens: " ++ e))) := by
  refine ⟨?_, ?_, ?_, ?_, ?_⟩
  · intro api skip now current_user hcu hadmin
    simp [get_users_tokens_metrics, hcu, hadmin]
  · intro api skip now e hcu
    simp [get_users_tokens_metrics, hcu]
  · intro api skip now current_user e hcu hadmin husers
    simp [get_users_tokens_metrics, hcu, hadmin, husers]
  · intro api skip now current_user users e hcu hadmin husers hpats
    simp [get_users_tokens_metrics, hcu, hadmin, husers, hpats]
  · intro results e h
    exact getGitlabDataLoop_first_error results e [] "" h

/-- Witness for C7: the non-administrator identity check short-circuits to
Ok "" with only the who-am-I endpoint consulted, even though the other two
endpoints would error. -/
theorem users_pipeline_soft_and_hard_witness :
    get_users_tokens_metrics nonAdminApi false 0
      = (Except.ok "", [UsersApiCall.currentUser]) :=
  users_pipeline_soft_and_hard.1 nonAdminApi false 0 ⟨7, false, "me"⟩ rfl rfl

/-- Claim C8: the sample value build writes after the label set is the
signed number of days from the current date to the expiry date, and the
sentinel 9999 when there is no expiry, in which case the rendered block is
exactly the label part with no expires_at label before the closing brace. -/
theorem build_sample_value :
    ∀ (t : Token) (date_now : Date),
    (∀ d, t.expiryDate = some d →
      build t date_now
        = buildLabelsPart t
          ++ (",expires_at=\"" ++ (dateStr d ++ ("\"\x7d " ++ toString (d - date_now)))))
    ∧ (t.expiryDate = none →
      build t date_now
        = buildLabelsPart t ++ ("\x7d " ++ toString DEFAULT_TOKEN_VALIDITY_DAYS))
    ∧ DEFAULT_TOKEN_VALIDITY_DAYS = 9999 := by
  intro t date_now
  refine ⟨?_, ?_, rfl⟩
  · intro d hd
    cases t with
    | Group token full_path web_url =>
      simp only [Token.expiryDate] at hd
      simp only [build, buildLabelsPart, hd, String.append_assoc]
    | Project token full_path web_url =>
      simp only [Token.expiryDate] at hd
      simp only [build, buildLabelsPart, hd, String.append_assoc]
    | User token full_path =>
      simp only [Token.expiryDate] at hd
      simp only [build, buildLabelsPart, hd, String.append_assoc]
  · intro hd
    cases t with
    | Group token full_path web_url =>
      simp only [Token.expiryDate] at hd
      simp only [build, buildLabelsPart, hd, String.append_assoc]
    | Project token full_path web_url =>
      simp only [Token.expiryDate] at hd
      simp only [build, buildLabelsPart, hd, String.append_assoc]
    | User token full_path =>
      simp only [Token.expiryDate] at hd
      simp only [build, buildLabelsPart, hd, String.append_assoc]

/-- Witness for C8 on the specification's end-to-end scenario: a project
"P" with a token expiring in 30 days (value 30), a revoked token expired
5 days ago (value -5), and a user token without expiry (value 9999, no
expires_at label in the block). -/
theorem build_sample_value_witness :
    build (Token.Project tokenT1 "P" "https://g/P") 0
      = buildLabelsPart (Token.Project tokenT1 "P" "https://g/P")
        ++ (",expires_at=\"" ++ (dateStr 30 ++ ("\"\x7d " ++ toString ((30 : Int) - 0))))
    ∧ build (Token.Project tokenT2 "P" "https://g/P") 0
      = buildLabelsPart (Token.Project tokenT2 "P" "https://g/P")
        ++ (",expires_at=\"" ++ (dateStr (-5) ++ ("\"\x7d " ++ toString ((-5 : Int) - 0))))
    ∧ toString ((30 : Int) - 0) = "30"
    ∧ toString ((-5 : Int) - 0) = "-5"
    ∧ build (Token.User tokenNoExpiry "bob") 0
      = buildLabelsPart (Token.User tokenNoExpiry "bob")
        ++ ("\x7d " ++ toString DEFAULT_TOKEN_VALIDITY_DAYS)
    ∧ containsSub "expires_at" (build (Token.User tokenNoExpiry "bob") 0) = false
    ∧ containsSub "expires_at" (build (Token.Project tokenT1 "P" "https://g/P") 0) = true :=
  ⟨(build_sample_value (Token.Project tokenT1 "P" "https://g/P") 0).1 30 rfl,
    (build_sample_value (Token.Project tokenT2 "P" "https://g/P") 0).1 (-5) rfl,
    by decide, by decide,
    (build_sample_value (Token.User tokenNoExpiry "bob") 0).2.1 rfl,
    by decide, by decide⟩

end GitlabTokensExporter
